import Mathlib

/-!
Shallow embedding of the `ProblemMatcherRegistry` class from
`packages/task/src/browser/task-problem-matcher-registry.ts`.

The registry's internal store `this.matchers` is a plain JS object used as a
string-keyed map; it is embedded as an association list `List (String × ProblemMatcher)`
where assignment to an existing key updates the entry in place and assignment to a
fresh key appends (JS string-key insertion order).  The enum types, the pattern
structures and the collaborating `ProblemPatternRegistry` live in
`packages/task/src/common` and `task-problem-pattern-registry.ts`, which are not
among the sampled sources; those are modelled from the specification and marked as
such in their doc comments.  Asynchrony is embedded by sequencing: the browser runs
the registry single-threaded, so each `await`-separated step is a pure state
transformation.
-/

namespace TaskProblemMatcher

/-- Modelled from the spec: the `ApplyToKind` enum from `packages/task/src/common`
(not among the sampled sources), with token vocabulary `allDocuments`,
`openDocuments`, `closedDocuments` (spec section 6). -/
inductive ApplyToKind where
  | allDocuments
  | openDocuments
  | closedDocuments
deriving DecidableEq

/-- Modelled from the spec: `ApplyToKind.fromString` parses one of the three tokens;
an absent or unknown token parses to `none`. -/
def ApplyToKind.fromString : Option String → Option ApplyToKind
  | some "allDocuments" => some ApplyToKind.allDocuments
  | some "openDocuments" => some ApplyToKind.openDocuments
  | some "closedDocuments" => some ApplyToKind.closedDocuments
  | _ => none

/-- Modelled from the spec: the `FileLocationKind` enum from
`packages/task/src/common`, with token vocabulary `absolute`, `relative`,
`autoDetect` (spec section 6). -/
inductive FileLocationKind where
  | Auto
  | Relative
  | Absolute
deriving DecidableEq

/-- Modelled from the spec: `FileLocationKind.fromString` parses one of the three
tokens; an unknown token parses to `none`. -/
def FileLocationKind.fromString : String → Option FileLocationKind
  | "absolute" => some FileLocationKind.Absolute
  | "relative" => some FileLocationKind.Relative
  | "autoDetect" => some FileLocationKind.Auto
  | _ => none

/-- Modelled from the spec: the `Severity` enum from `packages/task/src/common`
with conventional error/warning/info tokens (spec section 6). -/
inductive Severity where
  | Error
  | Warning
  | Info
deriving DecidableEq

/-- Modelled from the spec: `Severity.fromValue` parses a conventional token;
an absent or unknown token parses to `none` (severity stays unset). -/
def Severity.fromValue : Option String → Option Severity
  | some "error" => some Severity.Error
  | some "warning" => some Severity.Warning
  | some "info" => some Severity.Info
  | _ => none

/-- Modelled from the spec: a `ProblemPattern` is a single regex-based extraction
rule with capture-group indices for file, line, column, message and severity
(spec section 3); defined in `packages/task/src/common`. -/
structure ProblemPattern where
  regexp : String
  file : Option Nat := none
  line : Option Nat := none
  column : Option Nat := none
  message : Option Nat := none
  severity : Option Nat := none
deriving DecidableEq

/-- Modelled from the spec: the externally authored inline form of a problem
pattern (spec section 3). -/
structure ProblemPatternContribution where
  regexp : String
  file : Option Nat := none
  line : Option Nat := none
  column : Option Nat := none
  message : Option Nat := none
  severity : Option Nat := none
deriving DecidableEq

/-- Modelled from the spec: `ProblemPattern.fromProblemPatternContribution`
converts an inline contribution into a runtime pattern, copying the regex and the
capture-group role assignments through (spec sections 3 and 4.1 step 2). -/
def ProblemPattern.fromProblemPatternContribution (c : ProblemPatternContribution) : ProblemPattern :=
  { regexp := c.regexp, file := c.file, line := c.line, column := c.column,
    message := c.message, severity := c.severity }

/-- Modelled from the spec: the contributed watch-mode descriptor, with begin/end
regex markers (spec glossary). -/
structure WatchingMatcherContribution where
  activeOnStart : Option Bool := none
  beginsPattern : Option String := none
  endsPattern : Option String := none
deriving DecidableEq

/-- Modelled from the spec: the resolved watch-mode descriptor (spec section 3). -/
structure WatchingMatcher where
  activeOnStart : Option Bool := none
  beginsPattern : Option String := none
  endsPattern : Option String := none
deriving DecidableEq

/-- Modelled from the spec: `WatchingMatcher.fromWatchingMatcherContribution`
resolves a contributed watch descriptor, or yields absent when none was given
(spec section 4.1 step 5). -/
def WatchingMatcher.fromWatchingMatcherContribution :
    Option WatchingMatcherContribution → Option WatchingMatcher
  | none => none
  | some w => some { activeOnStart := w.activeOnStart, beginsPattern := w.beginsPattern,
                     endsPattern := w.endsPattern }

/-- The `fileLocation` field of a contribution: in TS `string | string[]`. -/
inductive FileLocationValue where
  | str : String → FileLocationValue
  | arr : List String → FileLocationValue
deriving DecidableEq

/-- The `pattern` field of a contribution: in TS a pattern name string, an inline
pattern contribution, or an array of inline pattern contributions. -/
inductive PatternValue where
  | ref : String → PatternValue
  | inline : ProblemPatternContribution → PatternValue
  | inlineList : List ProblemPatternContribution → PatternValue
deriving DecidableEq

/-- The externally authored `ProblemMatcherContribution` descriptor (spec section 3);
the interface lives in `packages/task/src/common`, its fields are read by the
registry code under the sampled sources. -/
structure ProblemMatcherContribution where
  name : Option String := none
  label : Option String := none
  deprecated : Option Bool := none
  owner : Option String := none
  source : Option String := none
  applyTo : Option String := none
  fileLocation : Option FileLocationValue := none
  pattern : Option PatternValue := none
  severity : Option String := none
  background : Option WatchingMatcherContribution := none
  watching : Option WatchingMatcherContribution := none
deriving DecidableEq

/-- The resolved `ProblemMatcher` record assembled by
`getProblemMatcherFromContribution` and stored by the registry (`NamedProblemMatcher`
when `name` is present).  `pattern` is `ProblemPattern | ProblemPattern[]` in TS and
may be `undefined` for default entries despite the non-null assertion, hence the
`Option` of a sum. -/
structure ProblemMatcher where
  name : Option String := none
  label : Option String := none
  deprecated : Option Bool := none
  owner : Option String := none
  source : Option String := none
  applyTo : ApplyToKind
  fileLocation : FileLocationKind
  filePrefix : Option String := none
  pattern : Option (ProblemPattern ⊕ List ProblemPattern) := none
  severity : Option Severity := none
  watching : Option WatchingMatcher := none
deriving DecidableEq

/-- Reading a property of a JS object used as a map: first (and, with unique keys,
only) entry stored under the key. -/
def getKey {α : Type} : List (String × α) → String → Option α
  | [], _ => none
  | e :: rest, k => if e.1 = k then some e.2 else getKey rest k

/-- Assigning a property of a JS object used as a map: an existing key is updated
in place, a fresh string key is appended in insertion order. -/
def setKey {α : Type} : List (String × α) → String → α → List (String × α)
  | [], k, v => [(k, v)]
  | e :: rest, k, v => if e.1 = k then (k, v) :: rest else e :: setKey rest k v

/-- Modelled from the spec: the collaborating `ProblemPatternRegistry`
(`task-problem-pattern-registry.ts`, not among the sampled sources) supplies named
regex patterns; `get(name)` returns a single pattern, a sequence of patterns, or
absent (spec section 6).  Its store is embedded as the name-keyed map it has
accumulated by the time it signals readiness. -/
structure ProblemPatternRegistry where
  patterns : List (String × (ProblemPattern ⊕ List ProblemPattern))

/-- Modelled from the spec: lookup of a named pattern registration. -/
def ProblemPatternRegistry.get (r : ProblemPatternRegistry) (name : String) :
    Option (ProblemPattern ⊕ List ProblemPattern) :=
  getKey r.patterns name

/-- Modelled from the spec: the pattern registry supplies *named* patterns
(spec section 2), so every registration key is a non-empty name. -/
abbrev ProblemPatternRegistry.Named (r : ProblemPatternRegistry) : Prop :=
  ∀ p ∈ r.patterns, p.1 ≠ ""

/-- JS truthiness of an optional string (`!matcher.name` is true exactly when the
field is `undefined` or the empty string). -/
def strTruthy : Option String → Bool
  | none => false
  | some s => if s = "" then false else true

/-- `name.startsWith('$')` on the one-character sigil. -/
def startsWithDollar (s : String) : Bool :=
  s.data.head? = some (Char.ofNat 36)

/-- `name.slice(1)`: drop the one-character sigil. -/
def dropSigil (s : String) : String :=
  String.mk (s.data.drop 1)

/-- The default file prefix literal `"$\x7bworkspaceFolder\x7d"`. -/
def defaultFilePrefix : String := "$\x7bworkspaceFolder\x7d"

/-- JS coerces an `undefined` property key to the string `"undefined"`; `add` only
ever receives named matchers in the source, so this default is never reached from
`register` or `fillDefaults`. -/
def jsPropertyKey : Option String → String
  | some s => s
  | none => "undefined"

/-- The registry's mutable map `this.matchers`. -/
abbrev Matchers := List (String × ProblemMatcher)

namespace ProblemMatcherRegistry

/-- `getFileLocationKindAndPrefix(matcher)`: computes the resolved
`(fileLocation, filePrefix)` pair, lines 133-158 of the source. -/
def getFileLocationKindAndPrefix (matcher : ProblemMatcherContribution) :
    FileLocationKind × String :=
  match matcher.fileLocation with
  | none => (FileLocationKind.Relative, defaultFilePrefix)
  | some (FileLocationValue.arr locs) =>
    -- the source binds `const locationKind = FileLocationKind.fromString(...[0])`;
    -- the local is inlined at its two use sites here
    if locs.length > 0 then
      if locs.length = 1 ∧
          FileLocationKind.fromString (locs.headD "") = some FileLocationKind.Absolute then
        (FileLocationKind.Absolute, defaultFilePrefix)
      else if locs.length = 2 ∧
          FileLocationKind.fromString (locs.headD "") = some FileLocationKind.Relative ∧
          locs.getD 1 "" ≠ "" then
        (FileLocationKind.Relative, locs.getD 1 "")
      else
        (FileLocationKind.Relative, defaultFilePrefix)
    else
      (FileLocationKind.Relative, defaultFilePrefix)
  | some (FileLocationValue.str s) =>
    match FileLocationKind.fromString s with
    | some locationKind => (locationKind, defaultFilePrefix)
    | none => (FileLocationKind.Relative, defaultFilePrefix)

/-- The `patterns` array accumulated by `getProblemMatcherFromContribution`,
lines 97-112 of the source.  The outer `if (matcher.pattern)` truthiness guard
skips the whole block exactly when the field is absent or an empty string (inline
objects and arrays, even empty ones, are truthy); inside, a string is looked up in
the pattern registry after awaiting its readiness. -/
def resolvedPatterns (ppr : ProblemPatternRegistry) (matcher : ProblemMatcherContribution) :
    List ProblemPattern :=
  match matcher.pattern with
  | none => []
  | some (PatternValue.ref s) =>
    if s = "" then []
    else
      match ppr.get s with
      | some (Sum.inr registeredPattern) => registeredPattern
      | some (Sum.inl registeredPattern) => [registeredPattern]
      | none => []
  | some (PatternValue.inlineList ps) => ps.map ProblemPattern.fromProblemPatternContribution
  | some (PatternValue.inline p) => [ProblemPattern.fromProblemPatternContribution p]

/-- `getProblemMatcherFromContribution(matcher)`: lines 95-127 of the source.
The single `await` inside (pattern-registry readiness) is a cooperative yield on
the single thread, so the whole call is one pure transformation of its inputs. -/
def getProblemMatcherFromContribution (ppr : ProblemPatternRegistry)
    (matcher : ProblemMatcherContribution) : ProblemMatcher :=
  let fl := getFileLocationKindAndPrefix matcher
  { name := matcher.name
    label := matcher.label
    deprecated := matcher.deprecated
    owner := matcher.owner
    source := matcher.source
    applyTo := (ApplyToKind.fromString matcher.applyTo).getD ApplyToKind.allDocuments
    fileLocation := fl.1
    filePrefix := some fl.2
    pattern := some (Sum.inr (resolvedPatterns ppr matcher))
    severity := Severity.fromValue matcher.severity
    watching := WatchingMatcher.fromWatchingMatcherContribution
      (matcher.background.orElse (fun _ => matcher.watching)) }

/-- `add(matcher)`: `this.matchers[matcher.name] = matcher`, lines 129-131. -/
def add (st : Matchers) (matcher : ProblemMatcher) : Matchers :=
  setKey st (jsPropertyKey matcher.name) matcher

/-- `get(name)`: lines 72-77; a name beginning with the sigil `$` has exactly one
leading `$` stripped before lookup.  Total: an absent entry is `none`. -/
def get (st : Matchers) (name : String) : Option ProblemMatcher :=
  if startsWithDollar name then getKey st (dropSigil name) else getKey st name

/-- `getAll()`: lines 82-88; every stored key is looked *back* up through `get`
(and the result pushed under a non-null assertion, so an element can in fact be
`undefined`, embedded here as `none`). -/
def getAll (st : Matchers) : List (Option ProblemMatcher) :=
  (st.map Prod.fst).map (fun matcherName => get st matcherName)

/-- The registry's state: the matcher map plus the `readyPromise` field, which is
`undefined` (`none`) until the init callback assigns it an already-resolved
promise (`some ()` — the source builds `new Promise(res => res(undefined))`,
resolved at construction). -/
structure RegistryState where
  matchers : Matchers
  readyPromise : Option Unit
deriving DecidableEq

/-- `init()` body before any callback runs: `this.matchers = Object.create(null)`,
`readyPromise` still unassigned (lines 38-46). -/
def initState : RegistryState :=
  { matchers := [], readyPromise := none }

/-- `onReady()`: returns the `readyPromise` field as it currently stands
(lines 48-50) — `undefined` before the init callback has run. -/
def onReady (st : RegistryState) : Option Unit :=
  st.readyPromise

/-- `register(matcher)`: lines 57-64.  A falsy (absent or empty) name logs an
error and returns without touching the state; otherwise the contribution is
resolved and stored under its name. -/
def register (ppr : ProblemPatternRegistry) (st : RegistryState)
    (matcher : ProblemMatcherContribution) : RegistryState :=
  if strTruthy matcher.name then
    { st with matchers := add st.matchers (getProblemMatcherFromContribution ppr matcher) }
  else
    st

/-- `fillDefaults()`: lines 161-245; the fixed default matcher table, each entry's
pattern fetched from the pattern registry under a non-null assertion (so it is
`none` when the name is not registered there). -/
def fillDefaults (ppr : ProblemPatternRegistry) (st : Matchers) : Matchers :=
  let st := add st
    { name := some "msCompile"
      label := some "Microsoft compiler problems"
      owner := some "msCompile"
      applyTo := ApplyToKind.allDocuments
      fileLocation := FileLocationKind.Absolute
      pattern := ppr.get "msCompile" }
  let st := add st
    { name := some "lessCompile"
      label := some "Less problems"
      deprecated := some true
      owner := some "lessCompile"
      source := some "less"
      applyTo := ApplyToKind.allDocuments
      fileLocation := FileLocationKind.Absolute
      pattern := ppr.get "lessCompile"
      severity := some Severity.Error }
  let st := add st
    { name := some "gulp-tsc"
      label := some "Gulp TSC Problems"
      owner := some "typescript"
      source := some "ts"
      applyTo := ApplyToKind.closedDocuments
      fileLocation := FileLocationKind.Relative
      filePrefix := some defaultFilePrefix
      pattern := ppr.get "gulp-tsc" }
  let st := add st
    { name := some "jshint"
      label := some "JSHint problems"
      owner := some "jshint"
      source := some "jshint"
      applyTo := ApplyToKind.allDocuments
      fileLocation := FileLocationKind.Absolute
      pattern := ppr.get "jshint" }
  let st := add st
    { name := some "jshint-stylish"
      label := some "JSHint stylish problems"
      owner := some "jshint"
      source := some "jshint"
      applyTo := ApplyToKind.allDocuments
      fileLocation := FileLocationKind.Absolute
      pattern := ppr.get "jshint-stylish" }
  let st := add st
    { name := some "eslint-compact"
      label := some "ESLint compact problems"
      owner := some "eslint"
      source := some "eslint"
      applyTo := ApplyToKind.allDocuments
      fileLocation := FileLocationKind.Absolute
      filePrefix := some defaultFilePrefix
      pattern := ppr.get "eslint-compact" }
  let st := add st
    { name := some "eslint-stylish"
      label := some "ESLint stylish problems"
      owner := some "eslint"
      source := some "eslint"
      applyTo := ApplyToKind.allDocuments
      fileLocation := FileLocationKind.Absolute
      pattern := ppr.get "eslint-stylish" }
  let st := add st
    { name := some "go"
      label := some "Go problems"
      owner := some "go"
      source := some "go"
      applyTo := ApplyToKind.allDocuments
      fileLocation := FileLocationKind.Relative
      filePrefix := some defaultFilePrefix
      pattern := ppr.get "go" }
  st

/-- The names seeded by `fillDefaults`, in seeding order. -/
def defaultMatcherNames : List String :=
  ["msCompile", "lessCompile", "gulp-tsc", "jshint", "jshint-stylish",
   "eslint-compact", "eslint-stylish", "go"]

/-- The `.then` callback of `init()` (lines 42-45), run once the pattern
registry's readiness promise settles: seed the defaults, then assign
`readyPromise` an immediately-resolved promise. -/
def onPatternRegistryReady (ppr : ProblemPatternRegistry) (st : RegistryState) :
    RegistryState :=
  { matchers := fillDefaults ppr st.matchers, readyPromise := some () }

/-- The `fillDefaults` entry for `msCompile`, named so concrete statements can
refer to it. -/
def msCompileDefault (ppr : ProblemPatternRegistry) : ProblemMatcher :=
  { name := some "msCompile"
    label := some "Microsoft compiler problems"
    owner := some "msCompile"
    applyTo := ApplyToKind.allDocuments
    fileLocation := FileLocationKind.Absolute
    pattern := ppr.get "msCompile" }

/-- Invariant maintained by `add`: every entry of the map is keyed by its stored
matcher's `name` field. -/
abbrev NamesMatchKeys (st : Matchers) : Prop := ∀ p ∈ st, p.2.name = some p.1

/-- Invariant of a JS object: property keys are unique. -/
abbrev KeysNodup (st : Matchers) : Prop := (st.map Prod.fst).Nodup

end ProblemMatcherRegistry

/-! ### Concrete objects used by the closed-instance theorems -/

/-- A pattern registry with no registrations. -/
def pprEmpty : ProblemPatternRegistry := ⟨[]⟩

/-- A minimal contribution named `x`. -/
def contribX : ProblemMatcherContribution := { name := some "x" }

/-- A contribution re-registering the name `x` with different fields. -/
def contribX2 : ProblemMatcherContribution := { name := some "x", owner := some "owner2" }

/-- A contribution whose (non-empty) name begins with the `$` sigil. -/
def contribSigilX : ProblemMatcherContribution := { name := some "$x" }

/-- A contribution named `$$x`, whose lookup key strips to `$x`. -/
def contribDoubleSigilX : ProblemMatcherContribution := { name := some "$$x" }

/-- Sample patterns for concrete pattern-registry contents. -/
def patA : ProblemPattern := { regexp := "a" }

/-- Second sample pattern. -/
def patB : ProblemPattern := { regexp := "b" }

/-- Third sample pattern. -/
def patC : ProblemPattern := { regexp := "c" }

/-- A pattern registry mapping the name `three` to a sequence of three patterns. -/
def pprSeq : ProblemPatternRegistry := ⟨[("three", Sum.inr [patA, patB, patC])]⟩

/-- A contribution whose `pattern` is the reference name `three`. -/
def contribRefThree : ProblemMatcherContribution :=
  { name := some "m", pattern := some (PatternValue.ref "three") }

namespace ProblemMatcherRegistry

/-- The matcher resolved from `contribSigilX` over the empty pattern registry. -/
def mSigilX : ProblemMatcher :=
  getProblemMatcherFromContribution pprEmpty contribSigilX

/-- The registry map after registering just the `"$x"` contribution. -/
def sigilSt1 : Matchers :=
  (register pprEmpty initState contribSigilX).matchers

/-- The registry map after registering `"$x"` and then `"$$x"`. -/
def sigilSt2 : Matchers :=
  (register pprEmpty (register pprEmpty initState contribSigilX)
    contribDoubleSigilX).matchers

end ProblemMatcherRegistry

/-! ### Map lemmas for the JS-object embedding -/

theorem getKey_setKey_self {α : Type} (st : List (String × α)) (k : String) (v : α) :
    getKey (setKey st k v) k = some v := by
  induction st with
  | nil => simp [setKey, getKey]
  | cons e rest ih =>
    by_cases h : e.1 = k
    · simp [setKey, h, getKey]
    · simp [setKey, h, getKey, ih]

theorem getKey_setKey_ne {α : Type} (st : List (String × α)) (k k' : String) (v : α)
    (h : k ≠ k') : getKey (setKey st k v) k' = getKey st k' := by
  induction st with
  | nil => simp [setKey, getKey, h]
  | cons e rest ih =>
    by_cases he : e.1 = k
    · simp [setKey, he, getKey, h]
    · simp [setKey, he, getKey, ih]

theorem length_setKey_of_isSome {α : Type} (st : List (String × α)) (k : String) (v : α)
    (h : (getKey st k).isSome) : (setKey st k v).length = st.length := by
  induction st with
  | nil => simp [getKey] at h
  | cons e rest ih =>
    by_cases he : e.1 = k
    · simp [setKey, he]
    · simp [getKey, he] at h
      simp [setKey, he, ih h]

theorem getKey_mem {α : Type} {st : List (String × α)} {k : String} {v : α}
    (h : getKey st k = some v) : (k, v) ∈ st := by
  induction st with
  | nil => simp [getKey] at h
  | cons e rest ih =>
    by_cases he : e.1 = k
    · simp [getKey, he] at h
      subst h
      simp [← he]
    · simp [getKey, he] at h
      exact List.mem_cons_of_mem _ (ih h)

theorem getKey_eq_none {α : Type} (st : List (String × α)) (k : String)
    (h : ∀ p ∈ st, p.1 ≠ k) : getKey st k = none := by
  induction st with
  | nil => rfl
  | cons e rest ih =>
    have he : e.1 ≠ k := h e (List.mem_cons_self e rest)
    simp [getKey, he]
    exact ih (fun p hp => h p (List.mem_cons_of_mem _ hp))

theorem getKey_of_mem_nodup {α : Type} {st : List (String × α)} {k : String} {v : α}
    (hnd : (st.map Prod.fst).Nodup) (hm : (k, v) ∈ st) : getKey st k = some v := by
  induction st with
  | nil => simp at hm
  | cons e rest ih =>
    simp only [List.map_cons, List.nodup_cons] at hnd
    rcases List.mem_cons.mp hm with h | h
    · subst h
      simp [getKey]
    · have hk : e.1 ≠ k := by
        intro hek
        exact hnd.1 (hek ▸ (List.mem_map.mpr ⟨(k, v), h, rfl⟩))
      simp [getKey, hk]
      exact ih hnd.2 h

/-! ### String sigil lemmas -/

theorem startsWithDollar_append (foo : String) :
    startsWithDollar ("$" ++ foo) = true := by
  simp [startsWithDollar, String.data_append]

theorem dropSigil_append (foo : String) : dropSigil ("$" ++ foo) = foo := by
  simp [dropSigil, String.data_append]

theorem sigil_decomp (s : String) (h : startsWithDollar s = true) :
    "$" ++ dropSigil s = s := by
  simp only [startsWithDollar, decide_eq_true_eq] at h
  rcases s with ⟨l⟩
  cases l with
  | nil => simp at h
  | cons c rest =>
    simp only [List.head?] at h
    have hc : c = Char.ofNat 36 := by simpa using h
    subst hc
    apply String.ext
    simp [dropSigil, String.data_append]

theorem dropSigil_ne_self (s : String) (h : startsWithDollar s = true) :
    dropSigil s ≠ s := by
  intro he
  have hlen : (dropSigil s).data.length = s.data.length := by rw [he]
  simp only [startsWithDollar, decide_eq_true_eq] at h
  rcases s with ⟨l⟩
  cases l with
  | nil => simp at h
  | cons c rest => simp [dropSigil] at hlen

namespace ProblemMatcherRegistry

theorem get_of_sigil (st : Matchers) (name : String) (h : startsWithDollar name = true) :
    get st name = getKey st (dropSigil name) := by
  simp [get, h]

theorem get_of_no_sigil (st : Matchers) (name : String) (h : startsWithDollar name = false) :
    get st name = getKey st name := by
  simp [get, h]

theorem mem_getAll_iff (st : Matchers) (x : Option ProblemMatcher) :
    x ∈ getAll st ↔ ∃ p ∈ st, get st p.1 = x := by
  simp [getAll]

/-! ### Claim theorems -/

/-- C2: resolving `contribution.fileLocation` — absent gives the default
`(relative, "$\x7bworkspaceFolder\x7d")`; the array `["absolute"]` resolves to
`absolute`; a two-element array whose first element parses to `relative` and whose
second element is a non-empty string gives `(relative, secondElement)`; any other
array shape (including `["relative"]` alone) is silently ignored and falls back to
the default. -/
theorem fileLocation_resolution (c : ProblemMatcherContribution) :
    (c.fileLocation = none →
       getFileLocationKindAndPrefix c = (FileLocationKind.Relative, defaultFilePrefix)) ∧
    (c.fileLocation = some (FileLocationValue.arr ["absolute"]) →
       getFileLocationKindAndPrefix c = (FileLocationKind.Absolute, defaultFilePrefix)) ∧
    (∀ s pfx, FileLocationKind.fromString s = some FileLocationKind.Relative → pfx ≠ "" →
       c.fileLocation = some (FileLocationValue.arr [s, pfx]) →
       getFileLocationKindAndPrefix c = (FileLocationKind.Relative, pfx)) ∧
    (c.fileLocation = some (FileLocationValue.arr ["relative"]) →
       getFileLocationKindAndPrefix c = (FileLocationKind.Relative, defaultFilePrefix)) ∧
    (∀ locs, c.fileLocation = some (FileLocationValue.arr locs) →
       ¬(locs.length = 1 ∧
           FileLocationKind.fromString (locs.headD "") = some FileLocationKind.Absolute) →
       ¬(locs.length = 2 ∧
           FileLocationKind.fromString (locs.headD "") = some FileLocationKind.Relative ∧
           locs.getD 1 "" ≠ "") →
       getFileLocationKindAndPrefix c = (FileLocationKind.Relative, defaultFilePrefix)) := by
  refine ⟨fun h => ?_, fun h => ?_, fun s pfx hs hpfx h => ?_, fun h => ?_,
    fun locs h h1 h2 => ?_⟩
  · simp [getFileLocationKindAndPrefix, h]
  · simp [getFileLocationKindAndPrefix, h, FileLocationKind.fromString]
  · simp [getFileLocationKindAndPrefix, h, hs, hpfx]
  · simp [getFileLocationKindAndPrefix, h, FileLocationKind.fromString]
  · simp only [getFileLocationKindAndPrefix, h]
    split_ifs with hpos <;> rfl

/-- Witness for C2 at the concrete inputs of the spec's examples. -/
theorem fileLocation_resolution_witness :
    getFileLocationKindAndPrefix
        { fileLocation := some (FileLocationValue.arr ["relative", "/x"]) } =
      (FileLocationKind.Relative, "/x") :=
  (fileLocation_resolution
      { fileLocation := some (FileLocationValue.arr ["relative", "/x"]) }).2.2.1
    "relative" "/x" (by decide) (by decide) rfl

/-- C4: `register` with an absent or empty name aborts without raising — it
performs no state change, and `getAll()` is the same before and after. -/
theorem register_invalid_name_noop (ppr : ProblemPatternRegistry) (st : RegistryState)
    (c : ProblemMatcherContribution) (h : c.name = none ∨ c.name = some "") :
    register ppr st c = st ∧
    getAll (register ppr st c).matchers = getAll st.matchers := by
  have hf : strTruthy c.name = false := by
    rcases h with h | h <;> simp [h, strTruthy]
  constructor
  · simp [register, hf]
  · simp [register, hf]

/-- Witness for C4: registering a contribution with an empty name changes nothing. -/
theorem register_invalid_name_noop_witness :
    register ⟨[]⟩ initState { name := some "" } = initState :=
  (register_invalid_name_noop ⟨[]⟩ initState { name := some "" } (Or.inr rfl)).1

/-- C6: resolution normalizes `applyTo` by enum parse; the resolved matcher's
`applyTo` is `allDocuments` whenever the contributed token is absent or does not
parse to a known token, and is the parsed value otherwise. -/
theorem applyTo_normalization (ppr : ProblemPatternRegistry)
    (c : ProblemMatcherContribution) :
    (∀ k, ApplyToKind.fromString c.applyTo = some k →
       (getProblemMatcherFromContribution ppr c).applyTo = k) ∧
    (ApplyToKind.fromString c.applyTo = none →
       (getProblemMatcherFromContribution ppr c).applyTo = ApplyToKind.allDocuments) ∧
    (c.applyTo = none →
       (getProblemMatcherFromContribution ppr c).applyTo = ApplyToKind.allDocuments) := by
  refine ⟨fun k h => ?_, fun h => ?_, fun h => ?_⟩
  · simp [getProblemMatcherFromContribution, h]
  · simp [getProblemMatcherFromContribution, h]
  · simp [getProblemMatcherFromContribution, h, ApplyToKind.fromString]

/-- Witness for C6: an unknown token resolves to `allDocuments`. -/
theorem applyTo_normalization_witness :
    (getProblemMatcherFromContribution ⟨[]⟩ { applyTo := some "bogus" }).applyTo =
      ApplyToKind.allDocuments :=
  (applyTo_normalization ⟨[]⟩ { applyTo := some "bogus" }).2.1 (by decide)

/-- C1 counterexample: the claim fails at a contribution carrying the non-empty
name `"$x"` — `register` stores the resolved matcher under the key `"$x"`, but
`get("$x")` strips the sigil, looks up `"x"`, and returns absent rather than a
matcher whose name is `"$x"`. -/
theorem register_sigil_name_get_misses :
    strTruthy contribSigilX.name = true ∧
    getKey (register pprEmpty initState contribSigilX).matchers "$x" =
      some (getProblemMatcherFromContribution pprEmpty contribSigilX) ∧
    get (register pprEmpty initState contribSigilX).matchers "$x" = none := by
  refine ⟨rfl, ?_, ?_⟩ <;> decide

/-- C1 amended: for every contribution whose name is a non-empty string *not
beginning with the `$` sigil*, after `register` completes, `get(name)` returns the
resolved matcher, whose `name` field equals the contribution's name. -/
theorem register_then_get_roundtrip (ppr : ProblemPatternRegistry)
    (st : RegistryState) (c : ProblemMatcherContribution) (n : String)
    (hn : c.name = some n) (hne : n ≠ "") (hns : startsWithDollar n = false) :
    ∃ m, get (register ppr st c).matchers n = some m ∧ m.name = some n := by
  have ht : strTruthy c.name = true := by simp [hn, strTruthy, hne]
  have hname : (getProblemMatcherFromContribution ppr c).name = some n := by
    simp [getProblemMatcherFromContribution, hn]
  refine ⟨getProblemMatcherFromContribution ppr c, ?_, hname⟩
  rw [register, if_pos ht]
  show get (add st.matchers (getProblemMatcherFromContribution ppr c)) n = _
  rw [get_of_no_sigil _ _ hns, add, hname]
  exact getKey_setKey_self st.matchers n _

/-- Witness for C1 (amended) at the concrete name `x` on the empty registry. -/
theorem register_then_get_roundtrip_witness :
    ∃ m, get (register pprEmpty initState contribX).matchers "x" = some m ∧
      m.name = some "x" :=
  register_then_get_roundtrip pprEmpty initState contribX "x" rfl (by decide)
    (by decide)

/-- C5 counterexample: the claim fails for a registered name that itself begins
with `$` — with a matcher registered under `"$x"`, `get("$" ++ "$x")` finds it but
`get("$x")` strips the sigil, looks up `"x"`, and misses. -/
theorem get_sigil_alias_counterexample :
    get (register pprEmpty initState contribSigilX).matchers ("$" ++ "$x") ≠
      get (register pprEmpty initState contribSigilX).matchers "$x" := by
  decide

/-- C5 amended: `get` strips exactly one leading `$` from a sigil-prefixed lookup
key, so `get("$foo")` and `get("foo")` agree for every name `foo` not itself
beginning with the sigil; `get` is total (never raises) and returns absent when
the normalized key has no entry. -/
theorem get_sigil_alias (st : Matchers) (foo : String)
    (hfoo : startsWithDollar foo = false) :
    get st ("$" ++ foo) = get st foo ∧
    (∀ name, startsWithDollar name = true →
       get st name = getKey st (dropSigil name)) ∧
    (∀ name, (∀ p ∈ st, p.1 ≠ name) → (∀ p ∈ st, p.1 ≠ dropSigil name) →
       get st name = none) := by
  refine ⟨?_, fun name h => get_of_sigil st name h, fun name h1 h2 => ?_⟩
  · rw [get_of_sigil st _ (startsWithDollar_append foo), dropSigil_append,
      get_of_no_sigil st foo hfoo]
  · by_cases h : startsWithDollar name
    · rw [get_of_sigil st name h]
      exact getKey_eq_none st _ h2
    · rw [get_of_no_sigil st name (by simpa using h)]
      exact getKey_eq_none st _ h1

/-- Witness for C5 (amended) on a one-entry registry built by `register`. -/
theorem get_sigil_alias_witness :
    get (register pprEmpty initState contribX).matchers ("$" ++ "x") =
      get (register pprEmpty initState contribX).matchers "x" :=
  (get_sigil_alias (register pprEmpty initState contribX).matchers "x"
    (by decide)).1

/-- C8: re-registering an already registered name silently overwrites that entry:
the map and `getAll()` keep their length, and the entry stored under the name
becomes the new contribution's resolved matcher. -/
theorem reregister_overwrites (ppr : ProblemPatternRegistry) (st : RegistryState)
    (c : ProblemMatcherContribution) (n : String) (hn : c.name = some n)
    (hne : n ≠ "") (hk : (getKey st.matchers n).isSome) :
    (register ppr st c).matchers.length = st.matchers.length ∧
    (getAll (register ppr st c).matchers).length = (getAll st.matchers).length ∧
    getKey (register ppr st c).matchers n =
      some (getProblemMatcherFromContribution ppr c) := by
  have ht : strTruthy c.name = true := by simp [hn, strTruthy, hne]
  have hname : (getProblemMatcherFromContribution ppr c).name = some n := by
    simp [getProblemMatcherFromContribution, hn]
  have hred : (register ppr st c).matchers =
      setKey st.matchers n (getProblemMatcherFromContribution ppr c) := by
    rw [register, if_pos ht]
    show add st.matchers _ = _
    rw [add, hname]
    rfl
  rw [hred]
  refine ⟨length_setKey_of_isSome _ _ _ hk, ?_, getKey_setKey_self _ _ _⟩
  simp [getAll, length_setKey_of_isSome _ _ _ hk]

/-- Witness for C8: re-registering the name `x` keeps one entry and updates it. -/
theorem reregister_overwrites_witness :
    getKey (register pprEmpty (register pprEmpty initState contribX) contribX2).matchers
        "x" = some (getProblemMatcherFromContribution pprEmpty contribX2) :=
  (reregister_overwrites pprEmpty (register pprEmpty initState contribX) contribX2
    "x" rfl (by decide) (by decide)).2.2

/-- A pattern registry whose registrations are all named has no entry under the
empty string. -/
theorem pprGet_empty_of_named (ppr : ProblemPatternRegistry)
    (h : ppr.Named) : ppr.get "" = none :=
  getKey_eq_none ppr.patterns "" h

/-- C3: a string-valued `pattern` is treated as a reference name and looked up in
the pattern registry once it is ready: a registered sequence is spliced in
wholesale (same patterns, same order), a registered single pattern is appended
alone, and a name with no registration contributes an empty sequence with no
error; the resolved matcher's `pattern` field carries exactly that sequence. -/
theorem pattern_reference_resolution (ppr : ProblemPatternRegistry)
    (hnamed : ppr.Named) (c : ProblemMatcherContribution) (s : String)
    (hc : c.pattern = some (PatternValue.ref s)) :
    ((getProblemMatcherFromContribution ppr c).pattern =
       some (Sum.inr (resolvedPatterns ppr c))) ∧
    (∀ l, ppr.get s = some (Sum.inr l) → resolvedPatterns ppr c = l) ∧
    (∀ p, ppr.get s = some (Sum.inl p) → resolvedPatterns ppr c = [p]) ∧
    (ppr.get s = none → resolvedPatterns ppr c = []) := by
  refine ⟨rfl, ?_, ?_, ?_⟩ <;> by_cases hs : s = ""
  · intro l hl
    rw [hs, pprGet_empty_of_named ppr hnamed] at hl
    exact absurd hl (by simp)
  · intro l hl
    simp [resolvedPatterns, hc, hs, hl]
  · intro p hp
    rw [hs, pprGet_empty_of_named ppr hnamed] at hp
    exact absurd hp (by simp)
  · intro p hp
    simp [resolvedPatterns, hc, hs, hp]
  · intro _
    simp [resolvedPatterns, hc, hs]
  · intro hnone
    simp [resolvedPatterns, hc, hs, hnone]

/-- Witness for C3: a reference to a registered three-pattern sequence resolves to
those three patterns in order. -/
theorem pattern_reference_resolution_witness :
    resolvedPatterns pprSeq contribRefThree = [patA, patB, patC] :=
  (pattern_reference_resolution pprSeq
    (by intro p hp; simp only [pprSeq, List.mem_singleton] at hp; subst hp; decide)
    contribRefThree "three" rfl).2.1 [patA, patB, patC] (by decide)

/-- C7: after the pattern registry's readiness has settled and `fillDefaults` has
run, every fixed default name is registered, and `getAll()` contains a matcher
named `msCompile` with `fileLocation = absolute` and `applyTo = allDocuments`. -/
theorem defaults_seeded_after_ready (ppr : ProblemPatternRegistry) :
    (defaultMatcherNames.all (fun n =>
       (get (onPatternRegistryReady ppr initState).matchers n).isSome)) = true ∧
    ∃ m, some m ∈ getAll (onPatternRegistryReady ppr initState).matchers ∧
      m.name = some "msCompile" ∧ m.fileLocation = FileLocationKind.Absolute ∧
      m.applyTo = ApplyToKind.allDocuments := by
  refine ⟨rfl, msCompileDefault ppr, ?_, rfl, rfl, rfl⟩
  refine (mem_getAll_iff _ _).mpr ⟨("msCompile", msCompileDefault ppr), ?_, rfl⟩
  exact List.mem_cons_self _ _

/-- C9 counterexample: with matchers registered under `"$x"` and `"$$x"`, the key
`"$$x"` strips to `"$x"`, so `getAll()` *does* return the matcher registered under
the `$`-beginning name `"$x"` — refuting the claim's universal "does not return
that matcher itself" (the `"$x"` key's own element is meanwhile the undefined
`none`, despite the non-null assertion). -/
theorem getAll_sigil_counterexample :
    getKey sigilSt2 "$x" = some mSigilX ∧
    startsWithDollar "$x" = true ∧
    some mSigilX ∈ getAll sigilSt2 ∧
    (none : Option ProblemMatcher) ∈ getAll sigilSt2 := by
  have h : getAll sigilSt2 = [none, some mSigilX] := rfl
  refine ⟨rfl, rfl, ?_, ?_⟩ <;> simp [h]

/-- C9 amended: under the invariants `add` maintains (entries keyed by their
matcher's name, keys unique), the `getAll` element contributed by a key beginning
with `$` is whatever is stored under the sigil-stripped name — never the matcher
stored under the key itself, and the undefined `none` when no such entry exists;
that matcher appears in `getAll` exactly when `"$"` followed by its full name is
also a registered key. -/
theorem getAll_sigil_key (st : Matchers) (k : String) (m : ProblemMatcher)
    (hwf : NamesMatchKeys st) (hnd : KeysNodup st) (hmem : (k, m) ∈ st)
    (hk : startsWithDollar k = true) :
    get st k = getKey st (dropSigil k) ∧
    get st k ≠ some m ∧
    ((∀ p ∈ st, p.1 ≠ dropSigil k) → get st k = none) ∧
    (some m ∈ getAll st ↔ ("$" ++ k) ∈ st.map Prod.fst) := by
  have hmk : m.name = some k := hwf _ hmem
  refine ⟨get_of_sigil st k hk, ?_, ?_, ?_, ?_⟩
  · rw [get_of_sigil st k hk]
    intro hcont
    have hin : (dropSigil k, m) ∈ st := getKey_mem hcont
    have h2 : some (dropSigil k) = some k := (hwf _ hin).symm.trans hmk
    exact dropSigil_ne_self k hk (Option.some.inj h2)
  · intro h
    rw [get_of_sigil st k hk]
    exact getKey_eq_none st _ h
  · intro hin
    obtain ⟨p, hp, hg⟩ := (mem_getAll_iff st _).mp hin
    by_cases hps : startsWithDollar p.1
    · rw [get_of_sigil st _ hps] at hg
      have hinm : (dropSigil p.1, m) ∈ st := getKey_mem hg
      have hdk : dropSigil p.1 = k :=
        Option.some.inj ((hwf _ hinm).symm.trans hmk)
      have hp1 : p.1 = "$" ++ k := by rw [← sigil_decomp p.1 hps, hdk]
      exact hp1 ▸ List.mem_map.mpr ⟨p, hp, rfl⟩
    · rw [get_of_no_sigil st _ (by simpa using hps)] at hg
      have hinm : (p.1, m) ∈ st := getKey_mem hg
      have hpk : p.1 = k := Option.some.inj ((hwf _ hinm).symm.trans hmk)
      exact absurd hk (by rw [← hpk]; simpa using hps)
  · intro hin
    obtain ⟨p, hp, hp1⟩ := List.mem_map.mp hin
    refine (mem_getAll_iff st _).mpr ⟨p, hp, ?_⟩
    rw [hp1, get_of_sigil _ _ (startsWithDollar_append k), dropSigil_append]
    exact getKey_of_mem_nodup hnd hmem

/-- Witness for C9 (amended): on the one-entry registry holding only `"$x"`, the
`getAll`-style lookup of that key yields the undefined element. -/
theorem getAll_sigil_key_witness : get sigilSt1 "$x" = none :=
  (getAll_sigil_key sigilSt1 "$x" mSigilX
    (by
      intro p hp
      simp only [show sigilSt1 = [("$x", mSigilX)] from rfl,
        List.mem_singleton] at hp
      subst hp
      rfl)
    (by decide)
    (by
      rw [show sigilSt1 = [("$x", mSigilX)] from rfl]
      exact List.mem_singleton.mpr rfl)
    (by decide)).2.2.1
    (by
      intro p hp
      simp only [show sigilSt1 = [("$x", mSigilX)] from rfl,
        List.mem_singleton] at hp
      subst hp
      decide)

/-- C10: before the pattern registry's readiness callback has run, `onReady()`
returns the absent value (`readyPromise` is still unassigned) — `register` never
assigns it — and from the callback on, `onReady()` returns an already-resolved
promise (the source constructs the promise already resolved). -/
theorem onReady_lifecycle (ppr : ProblemPatternRegistry) (st : RegistryState) :
    onReady initState = none ∧
    (∀ c, onReady (register ppr st c) = onReady st) ∧
    onReady (onPatternRegistryReady ppr st) = some () := by
  refine ⟨rfl, fun c => ?_, rfl⟩
  by_cases h : strTruthy c.name <;> simp [register, h, onReady]

end ProblemMatcherRegistry

end TaskProblemMatcher
